import Mathlib

set_option maxRecDepth 40000

/-!
Verification of the XModem sender core of the `xtermost` repository
(`flash_la66.go`): the checksum function `calculateChecksum` and the
transfer engine `xmodemSend` (handshake, per-block send/acknowledge with
bounded retries, end-of-transmission exchange).

Modelling choices:
- a byte is a `Nat`; wherever Go `byte` arithmetic wraps, the model takes
  the value modulo 256 explicitly (`calculateChecksum`, `blockNum++`,
  the one-complement `^blockNum = 255 - blockNum`);
- the serial input is a list of read outcomes, one per `readWithTimeout`
  call: `some b` means the read produced the byte `b`, `none` means the
  read timed out (Go returns `io.EOF`); an exhausted list behaves as a
  stream of timeouts, matching the fact that `readWithTimeout` always
  returns after its timeout; the handshake phase and the data phase each
  consume their own list, which is sound because all reads are strictly
  sequential;
- real-time durations (the 10 s handshake window, the 1.5 s / 5 s read
  timeouts, the 500 ms pause between end-of-transmission attempts) are
  abstracted away: the handshake reply list stands for the attempts that
  start inside the window, and each list entry stands for one bounded
  wait;
- every write to the serial port is recorded in order in a trace
  (`writes`), so statements about what is transmitted, and about the
  absence of further writes, are statements about this trace;
- the firmware file is a list of bytes; `io.ReadFull` chunking into
  128-byte blocks is modelled by `chunks`; a read error other than
  end-of-file cannot occur on a pure list, so the `file read error`
  branch of the Go code has no counterpart.
-/

/-- A byte of the model; Go `byte` values are the members below 256. -/
abbrev Byte := Nat

/-- One outcome of `readWithTimeout`: a byte, or a timeout. -/
abbrev Reply := Option Byte

/-- Start Of Header, begins a 128-byte data block (Go constant `SOH`). -/
def SOH : Byte := 0x01

/-- End Of Transmission (Go constant `EOT`). -/
def EOT : Byte := 0x04

/-- Positive acknowledgement (Go constant `ACK`). -/
def ACK : Byte := 0x06

/-- Negative acknowledgement (Go constant `NAK`). -/
def NAK : Byte := 0x15

/-- Cancel (Go constant `CAN`). -/
def CAN : Byte := 0x18

/-- The handshake probe byte, ASCII C (Go constant `CRC_START`). -/
def CRC_START : Byte := 0x43

/-- XModem block size (Go constant `DATA_SIZE`). -/
def DATA_SIZE : Nat := 128

/-- Maximum retries for a block send (Go constant `MAX_RETRIES`). -/
def MAX_RETRIES : Nat := 10

/-- Filler byte for an incomplete final block (literal 0x1A in the Go
padding loop of `xmodemSend`). -/
def PAD_BYTE : Byte := 0x1A

/-- Model of Go `calculateChecksum`: the running 8-bit sum of the data
bytes, each addition wrapping modulo 256 as Go `byte` addition does. -/
def calculateChecksum (data : List Byte) : Byte :=
  data.foldl (fun checksum b => (checksum + b) % 256) 0

/-- The padding step of `xmodemSend`: a chunk shorter than `DATA_SIZE`
is extended with the filler byte up to `DATA_SIZE` bytes. -/
def padChunk (chunk : List Byte) : List Byte :=
  chunk ++ List.replicate (DATA_SIZE - chunk.length) PAD_BYTE

/-- The packet built for one block transmission: `SOH`, the block
number, its one-complement (Go `^blockNum`, i.e. `255 - blockNum` for a
byte), the payload, and the 1-byte checksum of the payload. -/
def mkPacket (blockNum : Byte) (payload : List Byte) : List Byte :=
  [SOH, blockNum, 255 - blockNum % 256] ++ payload ++ [calculateChecksum payload]

/-- Model of Go `flushSerialBuffer`: repeated short reads that discard
bytes, stopping at the first read that times out or yields nothing. -/
def flushSerialBuffer : List Reply → List Reply
  | [] => []
  | none :: rest => rest
  | some _ :: rest => flushSerialBuffer rest

/-- Outcome of the per-block send loop of `xmodemSend` (the inner
`for retry` loop): the block was acknowledged, the receiver sent the
cancel byte, or the retry budget ran out. -/
inductive BlockResult
  | acked
  | cancelled
  | exhausted
deriving DecidableEq, Repr

/-- The error outcomes of `xmodemSend`: handshake window expired,
`MAX_RETRIES` attempts of one block all failed, the receiver cancelled,
or the final end-of-transmission byte was never acknowledged. -/
inductive TransferError
  | handshakeTimeout
  | retriesExhausted
  | cancelled
  | eotUnconfirmed
deriving DecidableEq, Repr

/-- The observable result of a transfer: the returned byte count, the
returned error if any, and the ordered trace of every write made to the
serial port (each element is the byte sequence of one `port.Write`). -/
structure SendResult where
  bytesSent : Nat
  error : Option TransferError
  writes : List (List Byte)
deriving DecidableEq, Repr

/-- Go `blockNum++` on a `byte`: increment wrapping modulo 256. -/
def nextBlockNum (blockNum : Byte) : Byte := (blockNum + 1) % 256

/-- The burst of four probe bytes written by each handshake attempt
(Go `port.Write([]byte{CRC_START, CRC_START, CRC_START, CRC_START})`). -/
def probeBurst : List Byte := [CRC_START, CRC_START, CRC_START, CRC_START]

/-- The inner `for retry := 0; retry < MAX_RETRIES` loop of
`xmodemSend` for one block: on each attempt the packet is rebuilt from
the unchanged block number and data buffer and written; then one reply
is read with a 5 s timeout. `ACK` ends the block successfully, `NAK`
and any unexpected byte flush the inbound buffer and retry, `CAN`
aborts, a timeout retries without flushing. Returns the loop outcome,
the unread remainder of the reply stream, and the packets written. -/
def sendBlockLoop (blockNum : Byte) (dataBuffer : List Byte) :
    Nat → List Reply → BlockResult × List Reply × List (List Byte)
  | 0, stream => (BlockResult.exhausted, stream, [])
  | retries + 1, stream =>
    match stream with
    | [] =>
      let r := sendBlockLoop blockNum dataBuffer retries []
      (r.1, r.2.1, mkPacket blockNum dataBuffer :: r.2.2)
    | some b :: rest =>
      if b = ACK then
        (BlockResult.acked, rest, [mkPacket blockNum dataBuffer])
      else if b = NAK then
        let r := sendBlockLoop blockNum dataBuffer retries (flushSerialBuffer rest)
        (r.1, r.2.1, mkPacket blockNum dataBuffer :: r.2.2)
      else if b = CAN then
        (BlockResult.cancelled, rest, [mkPacket blockNum dataBuffer])
      else
        let r := sendBlockLoop blockNum dataBuffer retries (flushSerialBuffer rest)
        (r.1, r.2.1, mkPacket blockNum dataBuffer :: r.2.2)
    | none :: rest =>
      let r := sendBlockLoop blockNum dataBuffer retries rest
      (r.1, r.2.1, mkPacket blockNum dataBuffer :: r.2.2)

/-- The end-of-transfer loop of `xmodemSend`: up to 10 attempts, each
writing the single `EOT` byte and reading one reply with a 5 s timeout
(then a 500 ms pause); an `ACK` reply returns success with the full
byte count, anything else retries; after 10 unacknowledged attempts the
full byte count is still returned, together with the distinct
end-of-transmission-unconfirmed error. -/
def eotPhase (total : Nat) : Nat → List Reply → SendResult
  | 0, _ =>
    { bytesSent := total, error := some TransferError.eotUnconfirmed, writes := [] }
  | retries + 1, stream =>
    match stream with
    | [] =>
      let r := eotPhase total retries []
      { r with writes := [EOT] :: r.writes }
    | reply :: rest =>
      if reply = some ACK then
        { bytesSent := total, error := none, writes := [[EOT]] }
      else
        let r := eotPhase total retries rest
        { r with writes := [EOT] :: r.writes }

/-- The handshake loop of `xmodemSend`: each attempt inside the 10 s
window writes the four-byte probe burst and reads one reply with a
1.5 s timeout; a reply equal to `CRC_START` or `NAK` ends the loop
successfully, any other byte or a timeout is ignored and probing
continues; the list holds the attempts that start inside the window, so
its exhaustion is the window expiring. Returns success and the writes. -/
def handshakePhase : List Reply → Bool × List (List Byte)
  | [] => (false, [])
  | some b :: rest =>
    if b = CRC_START ∨ b = NAK then
      (true, [probeBurst])
    else
      let r := handshakePhase rest
      (r.1, probeBurst :: r.2)
  | none :: rest =>
    let r := handshakePhase rest
    (r.1, probeBurst :: r.2)

/-- Fuelled splitting of the file into `DATA_SIZE`-byte chunks, the last
one possibly shorter; the fuel only serves structural recursion. -/
def chunksGo : Nat → List Byte → List (List Byte)
  | 0, _ => []
  | _ + 1, [] => []
  | fuel + 1, b :: t =>
    (b :: t).take DATA_SIZE :: chunksGo fuel ((b :: t).drop DATA_SIZE)

/-- The chunk sequence `io.ReadFull` produces from the file: successive
128-byte chunks, the last possibly shorter, none empty. -/
def chunks (file : List Byte) : List (List Byte) :=
  chunksGo file.length file

/-- The outer data-transfer loop of `xmodemSend`: for each chunk, pad it
to `DATA_SIZE` bytes, run the block send loop with the current block
number; on acknowledgement add the chunk's real (unpadded) length to the
running total, advance the block number modulo 256, and continue; on
cancellation or retry exhaustion return the running total with the
corresponding error; when the chunks are exhausted run the
end-of-transmission phase. -/
def sendChunks : List (List Byte) → Byte → Nat → List Reply → SendResult
  | [], _, total, stream => eotPhase total 10 stream
  | chunk :: rest, blockNum, total, stream =>
    let r := sendBlockLoop blockNum (padChunk chunk) MAX_RETRIES stream
    match r.1 with
    | BlockResult.acked =>
      let next := sendChunks rest (nextBlockNum blockNum) (total + chunk.length) r.2.1
      { next with writes := r.2.2 ++ next.writes }
    | BlockResult.cancelled =>
      { bytesSent := total, error := some TransferError.cancelled, writes := r.2.2 }
    | BlockResult.exhausted =>
      { bytesSent := total, error := some TransferError.retriesExhausted, writes := r.2.2 }

/-- Model of Go `xmodemSend`: run the handshake; on failure return zero
bytes and the handshake-timeout error (both Go return paths of a failed
handshake return zero bytes and an error); on success transfer the file
chunks starting at block number 1 with zero bytes accumulated. -/
def xmodemSend (handshakeReplies : List Reply) (file : List Byte)
    (stream : List Reply) : SendResult :=
  let hs := handshakePhase handshakeReplies
  if hs.1 then
    let r := sendChunks (chunks file) 1 0 stream
    { r with writes := hs.2 ++ r.writes }
  else
    { bytesSent := 0, error := some TransferError.handshakeTimeout, writes := hs.2 }

/-- Sum over mod-256 accumulation equals accumulation of the plain sum. -/
theorem checksum_foldl (l : List Byte) (acc : Nat) :
    List.foldl (fun c b => (c + b) % 256) (acc % 256) l = (acc + l.sum) % 256 := by
  induction l generalizing acc with
  | nil => simp
  | cons b t ih =>
    simp only [List.foldl_cons, List.sum_cons]
    rw [Nat.mod_add_mod, ih (acc + b), Nat.add_assoc]

/-- `calculateChecksum` is the sum of the bytes modulo 256. -/
theorem calculateChecksum_eq_sum (l : List Byte) :
    calculateChecksum l = l.sum % 256 := by
  have h := checksum_foldl l 0
  simpa [calculateChecksum] using h

/-- Every write of the block send loop is the same packet, built from
the unchanged block number and data buffer. -/
theorem sendBlockLoop_writes_eq (bn : Byte) (buf : List Byte) :
    ∀ r s w, w ∈ (sendBlockLoop bn buf r s).2.2 → w = mkPacket bn buf := by
  intro r
  induction r with
  | zero => intro s w hw; simp [sendBlockLoop] at hw
  | succ n ih =>
    intro s w hw
    match s with
    | [] =>
      simp only [sendBlockLoop] at hw
      rcases List.mem_cons.mp hw with h | h
      · exact h
      · exact ih [] w h
    | some b :: rest =>
      simp only [sendBlockLoop] at hw
      by_cases hb1 : b = ACK
      · simp [hb1] at hw; exact hw
      · by_cases hb2 : b = NAK
        · simp only [if_neg hb1, if_pos hb2] at hw
          rcases List.mem_cons.mp hw with h | h
          · exact h
          · exact ih _ w h
        · by_cases hb3 : b = CAN
          · simp [hb1, hb2, hb3, ACK, NAK, CAN] at hw; exact hw
          · simp only [if_neg hb1, if_neg hb2, if_neg hb3] at hw
            rcases List.mem_cons.mp hw with h | h
            · exact h
            · exact ih _ w h
    | none :: rest =>
      simp only [sendBlockLoop] at hw
      rcases List.mem_cons.mp hw with h | h
      · exact h
      · exact ih rest w h

/-- As long as at least one attempt is allowed, the block packet is
transmitted at least once. -/
theorem sendBlockLoop_packet_mem (bn : Byte) (buf : List Byte) (r : Nat)
    (s : List Reply) : mkPacket bn buf ∈ (sendBlockLoop bn buf (r + 1) s).2.2 := by
  match s with
  | [] => simp [sendBlockLoop]
  | some b :: rest =>
    by_cases hb1 : b = ACK
    · simp [sendBlockLoop, hb1]
    · by_cases hb2 : b = NAK
      · simp [sendBlockLoop, hb1, hb2, ACK, NAK]
      · by_cases hb3 : b = CAN
        · simp [sendBlockLoop, hb1, hb2, hb3, ACK, NAK, CAN]
        · simp [sendBlockLoop, hb1, hb2, hb3]
  | none :: rest => simp [sendBlockLoop]

/-- A positive acknowledgement ends the block loop at once: exactly one
transmission, outcome acknowledged, the rest of the stream untouched. -/
theorem sendBlockLoop_ack (bn : Byte) (buf : List Byte) (r : Nat) (s : List Reply) :
    sendBlockLoop bn buf (r + 1) (some ACK :: s) =
      (BlockResult.acked, s, [mkPacket bn buf]) := by
  simp [sendBlockLoop]

/-- A negative acknowledgement transmits the identical packet again:
the loop flushes the inbound buffer and recurses with the same block
number and buffer, the just-sent packet recorded in front. -/
theorem sendBlockLoop_nak (bn : Byte) (buf : List Byte) (r : Nat) (s : List Reply) :
    sendBlockLoop bn buf (r + 1) (some NAK :: s) =
      ((sendBlockLoop bn buf r (flushSerialBuffer s)).1,
       (sendBlockLoop bn buf r (flushSerialBuffer s)).2.1,
       mkPacket bn buf :: (sendBlockLoop bn buf r (flushSerialBuffer s)).2.2) := by
  simp [sendBlockLoop, NAK, ACK]

/-- A cancel reply ends the block loop at once with the cancelled
outcome; only the packet just sent was written. -/
theorem sendBlockLoop_can (bn : Byte) (buf : List Byte) (r : Nat) (s : List Reply) :
    sendBlockLoop bn buf (r + 1) (some CAN :: s) =
      (BlockResult.cancelled, s, [mkPacket bn buf]) := by
  simp [sendBlockLoop, NAK, ACK, CAN]

/-- With a silent receiver every allowed attempt transmits the packet
and the loop ends exhausted. -/
theorem sendBlockLoop_timeout_all (bn : Byte) (buf : List Byte) :
    ∀ r, sendBlockLoop bn buf r [] =
      (BlockResult.exhausted, [], List.replicate r (mkPacket bn buf)) := by
  intro r
  induction r with
  | zero => simp [sendBlockLoop]
  | succ n ih => simp [sendBlockLoop, ih, List.replicate_succ]

/-- When the loop ends exhausted it has transmitted the packet exactly
once per allowed attempt. -/
theorem sendBlockLoop_exhausted_length (bn : Byte) (buf : List Byte) :
    ∀ r s, (sendBlockLoop bn buf r s).1 = BlockResult.exhausted →
      (sendBlockLoop bn buf r s).2.2.length = r := by
  intro r
  induction r with
  | zero => intro s _; simp [sendBlockLoop]
  | succ n ih =>
    intro s h
    match s with
    | [] =>
      simp only [sendBlockLoop] at h ⊢
      simp [ih [] h]
    | some b :: rest =>
      by_cases hb1 : b = ACK
      · simp [sendBlockLoop, hb1] at h
      · by_cases hb2 : b = NAK
        · simp only [sendBlockLoop, if_neg hb1, if_pos hb2] at h ⊢
          simp [ih _ h]
        · by_cases hb3 : b = CAN
          · simp [sendBlockLoop, hb1, hb2, hb3, ACK, NAK, CAN] at h
          · simp only [sendBlockLoop, if_neg hb1, if_neg hb2, if_neg hb3] at h ⊢
            simp [ih _ h]
    | none :: rest =>
      simp only [sendBlockLoop] at h ⊢
      simp [ih rest h]

/-- Every write of the end-of-transmission phase is the single EOT
byte. -/
theorem eotPhase_writes_eq (total : Nat) :
    ∀ k s w, w ∈ (eotPhase total k s).writes → w = [EOT] := by
  intro k
  induction k with
  | zero => intro s w hw; simp [eotPhase] at hw
  | succ n ih =>
    intro s w hw
    match s with
    | [] =>
      simp only [eotPhase] at hw
      rcases List.mem_cons.mp hw with h | h
      · exact h
      · exact ih [] w h
    | reply :: rest =>
      by_cases hr : reply = some ACK
      · simp [eotPhase, hr] at hw; exact hw
      · simp only [eotPhase, if_neg hr] at hw
        rcases List.mem_cons.mp hw with h | h
        · exact h
        · exact ih rest w h

/-- If none of the replies consumed by the allowed attempts is a
positive acknowledgement, the end-of-transmission phase writes the EOT
byte once per attempt and ends with the full byte count and the
unconfirmed-EOT error. -/
theorem eotPhase_no_ack (total : Nat) :
    ∀ k s, (∀ x ∈ s.take k, x ≠ some ACK) →
      eotPhase total k s =
        { bytesSent := total, error := some TransferError.eotUnconfirmed,
          writes := List.replicate k [EOT] } := by
  intro k
  induction k with
  | zero => intro s _; simp [eotPhase]
  | succ n ih =>
    intro s h
    match s with
    | [] =>
      simp only [eotPhase]
      rw [ih [] (by simp)]
      simp [List.replicate_succ]
    | reply :: rest =>
      have hr : reply ≠ some ACK := h reply (by simp)
      simp only [eotPhase, if_neg hr]
      rw [ih rest (fun x hx => h x (by simp [hx]))]
      simp [List.replicate_succ]

/-- A positive acknowledgement of the EOT byte ends the transfer with
no error and a single EOT write in this phase. -/
theorem eotPhase_ack (total r : Nat) (s : List Reply) :
    eotPhase total (r + 1) (some ACK :: s) =
      { bytesSent := total, error := none, writes := [[EOT]] } := by
  simp [eotPhase]

/-- The handshake succeeds exactly when some attempt inside the window
reads a byte equal to the probe byte or to the negative
acknowledgement. -/
theorem handshakePhase_true_iff (hs : List Reply) :
    (handshakePhase hs).1 = true ↔
      ∃ b, some b ∈ hs ∧ (b = CRC_START ∨ b = NAK) := by
  induction hs with
  | nil => simp [handshakePhase]
  | cons r rest ih =>
    match r with
    | some b =>
      by_cases hb : b = CRC_START ∨ b = NAK
      · simp only [handshakePhase, if_pos hb]
        simp only [true_iff]
        exact ⟨b, List.mem_cons_self _ _, hb⟩
      · simp only [handshakePhase, if_neg hb]
        rw [ih]
        constructor
        · rintro ⟨c, hc, hcp⟩
          exact ⟨c, List.mem_cons_of_mem _ hc, hcp⟩
        · rintro ⟨c, hc, hcp⟩
          rcases List.mem_cons.mp hc with h | h
          · obtain rfl : c = b := by simpa using h
            exact absurd hcp hb
          · exact ⟨c, h, hcp⟩
    | none =>
      simp only [handshakePhase]
      rw [ih]
      constructor
      · rintro ⟨c, hc, hcp⟩
        exact ⟨c, List.mem_cons_of_mem _ hc, hcp⟩
      · rintro ⟨c, hc, hcp⟩
        rcases List.mem_cons.mp hc with h | h
        · exact absurd h (by simp)
        · exact ⟨c, h, hcp⟩

/-- Every write of the handshake phase is the four-byte probe burst. -/
theorem handshakePhase_writes_eq (hs : List Reply) :
    ∀ w ∈ (handshakePhase hs).2, w = probeBurst := by
  induction hs with
  | nil => intro w hw; simp [handshakePhase] at hw
  | cons r rest ih =>
    intro w hw
    match r with
    | some b =>
      by_cases hb : b = CRC_START ∨ b = NAK
      · simp [handshakePhase, hb] at hw; exact hw
      · simp only [handshakePhase, if_neg hb] at hw
        rcases List.mem_cons.mp hw with h | h
        · exact h
        · exact ih w h
    | none =>
      simp only [handshakePhase] at hw
      rcases List.mem_cons.mp hw with h | h
      · exact h
      · exact ih w h

/-- Chunking the empty file gives no chunks, for any fuel. -/
theorem chunksGo_nil : ∀ fuel, chunksGo fuel [] = [] := by
  intro fuel
  cases fuel <;> simp [chunksGo]

/-- Every chunk the file splitter produces is nonempty and at most
`DATA_SIZE` bytes long. -/
theorem chunksGo_mem :
    ∀ fuel l c, c ∈ chunksGo fuel l → c.length ≤ DATA_SIZE ∧ c ≠ [] := by
  intro fuel
  induction fuel with
  | zero => intro l c hc; simp [chunksGo] at hc
  | succ n ih =>
    intro l c hc
    match l with
    | [] => simp [chunksGo] at hc
    | b :: t =>
      simp only [chunksGo] at hc
      rcases List.mem_cons.mp hc with h | h
      · subst h
        refine ⟨by simp [List.length_take], ?_⟩
        have hpos : 0 < ((b :: t).take DATA_SIZE).length := by
          simp [List.length_take, DATA_SIZE]
        exact List.ne_nil_of_length_pos hpos
      · exact ih _ c h

/-- A nonempty file of at most `DATA_SIZE` bytes is a single chunk. -/
theorem chunks_short (l : List Byte) (h1 : l ≠ []) (h2 : l.length ≤ DATA_SIZE) :
    chunks l = [l] := by
  match l, h1 with
  | b :: t, _ =>
    show chunksGo (b :: t).length (b :: t) = [b :: t]
    rw [List.length_cons]
    simp only [chunksGo]
    rw [List.take_of_length_le h2, List.drop_eq_nil_of_le h2, chunksGo_nil]

/-- Padding a chunk of at most `DATA_SIZE` bytes yields exactly
`DATA_SIZE` bytes. -/
theorem padChunk_length (c : List Byte) (h : c.length ≤ DATA_SIZE) :
    (padChunk c).length = DATA_SIZE := by
  simp [padChunk]
  omega

/-- With no chunks left the data loop goes straight to the
end-of-transmission phase. -/
theorem sendChunks_nil (bn : Byte) (total : Nat) (s : List Reply) :
    sendChunks [] bn total s = eotPhase total 10 s := rfl

/-- When the head block is acknowledged, the data loop adds the real
chunk length to the byte count and continues with the incremented block
number on the unread stream. -/
theorem sendChunks_cons_acked (chunk : List Byte) (rest : List (List Byte))
    (bn : Byte) (total : Nat) (s : List Reply)
    (h : (sendBlockLoop bn (padChunk chunk) MAX_RETRIES s).1 = BlockResult.acked) :
    sendChunks (chunk :: rest) bn total s =
      { sendChunks rest (nextBlockNum bn) (total + chunk.length)
          (sendBlockLoop bn (padChunk chunk) MAX_RETRIES s).2.1 with
        writes := (sendBlockLoop bn (padChunk chunk) MAX_RETRIES s).2.2 ++
          (sendChunks rest (nextBlockNum bn) (total + chunk.length)
            (sendBlockLoop bn (padChunk chunk) MAX_RETRIES s).2.1).writes } := by
  simp only [sendChunks]
  rw [h]

/-- When the head block is cancelled, the data loop stops at once with
the accumulated byte count and the cancellation error; the trace ends
with the writes of that block loop. -/
theorem sendChunks_cons_cancelled (chunk : List Byte) (rest : List (List Byte))
    (bn : Byte) (total : Nat) (s : List Reply)
    (h : (sendBlockLoop bn (padChunk chunk) MAX_RETRIES s).1 = BlockResult.cancelled) :
    sendChunks (chunk :: rest) bn total s =
      { bytesSent := total, error := some TransferError.cancelled,
        writes := (sendBlockLoop bn (padChunk chunk) MAX_RETRIES s).2.2 } := by
  simp only [sendChunks]
  rw [h]

/-- When the head block exhausts its retries, the data loop stops at
once with the accumulated byte count and the retries-exhausted error;
the trace ends with the writes of that block loop. -/
theorem sendChunks_cons_exhausted (chunk : List Byte) (rest : List (List Byte))
    (bn : Byte) (total : Nat) (s : List Reply)
    (h : (sendBlockLoop bn (padChunk chunk) MAX_RETRIES s).1 = BlockResult.exhausted) :
    sendChunks (chunk :: rest) bn total s =
      { bytesSent := total, error := some TransferError.retriesExhausted,
        writes := (sendBlockLoop bn (padChunk chunk) MAX_RETRIES s).2.2 } := by
  simp only [sendChunks]
  rw [h]

/-- A successful handshake makes `xmodemSend` the data transfer from
block number 1 with zero bytes accumulated, the probe writes in front. -/
theorem xmodemSend_ok (hs : List Reply) (file : List Byte) (stream : List Reply)
    (hok : (handshakePhase hs).1 = true) :
    xmodemSend hs file stream =
      { sendChunks (chunks file) 1 0 stream with
        writes := (handshakePhase hs).2 ++ (sendChunks (chunks file) 1 0 stream).writes } := by
  simp only [xmodemSend]
  rw [hok]
  simp

/-- A failed handshake makes `xmodemSend` return zero bytes, the
handshake-timeout error, and only the probe writes. -/
theorem xmodemSend_fail (hs : List Reply) (file : List Byte) (stream : List Reply)
    (hbad : (handshakePhase hs).1 = false) :
    xmodemSend hs file stream =
      { bytesSent := 0, error := some TransferError.handshakeTimeout,
        writes := (handshakePhase hs).2 } := by
  simp only [xmodemSend]
  rw [hbad]
  simp

/-- Shape invariant of the data-phase trace: every write is the single
EOT byte or a full 132-byte packet in the XModem layout. -/
theorem sendChunks_writes_shape :
    ∀ (cs : List (List Byte)) (bn : Byte) (total : Nat) (s : List Reply),
      bn < 256 → (∀ c ∈ cs, c.length ≤ DATA_SIZE) →
      ∀ w ∈ (sendChunks cs bn total s).writes,
        w = [EOT] ∨ ∃ b p, b < 256 ∧ p.length = DATA_SIZE ∧
          w = SOH :: b :: (255 - b) :: (p ++ [calculateChecksum p]) ∧ w.length = 132 := by
  intro cs
  induction cs with
  | nil =>
    intro bn total s _ _ w hw
    exact Or.inl (eotPhase_writes_eq total 10 s w hw)
  | cons chunk rest ih =>
    intro bn total s hbn hcs w hw
    have hchunk : chunk.length ≤ DATA_SIZE := hcs chunk (List.mem_cons_self _ _)
    have hpacket : ∀ v, v ∈ (sendBlockLoop bn (padChunk chunk) MAX_RETRIES s).2.2 →
        v = [EOT] ∨ ∃ b p, b < 256 ∧ p.length = DATA_SIZE ∧
          v = SOH :: b :: (255 - b) :: (p ++ [calculateChecksum p]) ∧ v.length = 132 := by
      intro v hv
      have hveq := sendBlockLoop_writes_eq bn (padChunk chunk) MAX_RETRIES s v hv
      refine Or.inr ⟨bn, padChunk chunk, hbn, padChunk_length chunk hchunk, ?_, ?_⟩
      · rw [hveq]
        simp [mkPacket, Nat.mod_eq_of_lt hbn]
      · rw [hveq]
        simp [mkPacket, padChunk_length chunk hchunk, DATA_SIZE]
    rcases hacked : (sendBlockLoop bn (padChunk chunk) MAX_RETRIES s).1 with _ | _ | _
    · rw [sendChunks_cons_acked chunk rest bn total s hacked] at hw
      simp only [List.mem_append] at hw
      rcases hw with h | h
      · exact hpacket w h
      · exact ih (nextBlockNum bn) (total + chunk.length) _
          (Nat.mod_lt _ (by norm_num))
          (fun c hc => hcs c (List.mem_cons_of_mem _ hc)) w h
    · rw [sendChunks_cons_cancelled chunk rest bn total s hacked] at hw
      exact hpacket w hw
    · rw [sendChunks_cons_exhausted chunk rest bn total s hacked] at hw
      exact hpacket w hw

/-- C1: for every byte sequence of length 128, `calculateChecksum`
returns the sum of all bytes modulo 256, whatever the content; as a
total Lean function it is pure and never fails. -/
theorem checksum_is_sum_mod_256 (data : List Byte) (_h : data.length = 128) :
    calculateChecksum data = data.sum % 256 :=
  calculateChecksum_eq_sum data

/-- Witness for C1 at the all-0xFF block of length 128. -/
theorem checksum_is_sum_mod_256_witness :
    (List.replicate 128 0xFF).length = 128 ∧
      calculateChecksum (List.replicate 128 0xFF) = (List.replicate 128 0xFF).sum % 256 :=
  ⟨by decide, checksum_is_sum_mod_256 (List.replicate 128 0xFF) (by decide)⟩

/-- C10: `calculateChecksum` is total over byte sequences of every
length: it returns 0 on the empty sequence and turns concatenation into
modulo-256 addition. -/
theorem checksum_monoid_hom :
    calculateChecksum [] = 0 ∧
      ∀ a b : List Byte,
        calculateChecksum (a ++ b) = (calculateChecksum a + calculateChecksum b) % 256 := by
  refine ⟨rfl, fun a b => ?_⟩
  simp [calculateChecksum_eq_sum, Nat.add_mod]

/-- C2: for every source chunk shorter than 128 bytes (a chunk is
nonempty by construction of the file reader), the payload transmitted
by `xmodemSend` is the original chunk followed by exactly
`128 - length` filler bytes 0x1A, and the checksum byte of the packet
is computed over the full padded 128-byte payload. -/
theorem xmodem_short_chunk_padded (chunk : List Byte) (hs stream : List Reply)
    (h1 : chunk ≠ []) (h2 : chunk.length < DATA_SIZE)
    (hok : (handshakePhase hs).1 = true) :
    (SOH :: 1 :: 254 ::
      ((chunk ++ List.replicate (DATA_SIZE - chunk.length) PAD_BYTE) ++
        [calculateChecksum (chunk ++ List.replicate (DATA_SIZE - chunk.length) PAD_BYTE)]))
      ∈ (xmodemSend hs chunk stream).writes := by
  have hpkt : mkPacket 1 (padChunk chunk) =
      SOH :: 1 :: 254 ::
        ((chunk ++ List.replicate (DATA_SIZE - chunk.length) PAD_BYTE) ++
          [calculateChecksum (chunk ++ List.replicate (DATA_SIZE - chunk.length) PAD_BYTE)]) := by
    simp [mkPacket, padChunk]
  rw [xmodemSend_ok hs chunk stream hok, ← hpkt]
  apply List.mem_append_right
  rw [chunks_short chunk h1 (le_of_lt h2)]
  have hmem : mkPacket 1 (padChunk chunk) ∈
      (sendBlockLoop 1 (padChunk chunk) MAX_RETRIES stream).2.2 :=
    sendBlockLoop_packet_mem 1 (padChunk chunk) 9 stream
  rcases hres : (sendBlockLoop 1 (padChunk chunk) MAX_RETRIES stream).1 with _ | _ | _
  · rw [sendChunks_cons_acked chunk [] 1 0 stream hres]
    exact List.mem_append_left _ hmem
  · rw [sendChunks_cons_cancelled chunk [] 1 0 stream hres]
    exact hmem
  · rw [sendChunks_cons_exhausted chunk [] 1 0 stream hres]
    exact hmem

/-- Witness for C2 at a one-byte chunk, a one-probe handshake and a
silent receiver. -/
theorem xmodem_short_chunk_padded_witness :
    ([7] : List Byte) ≠ [] ∧ ([7] : List Byte).length < DATA_SIZE ∧
      (handshakePhase [some CRC_START]).1 = true ∧
      (SOH :: 1 :: 254 ::
        (([7] ++ List.replicate (DATA_SIZE - ([7] : List Byte).length) PAD_BYTE) ++
          [calculateChecksum ([7] ++ List.replicate (DATA_SIZE - ([7] : List Byte).length) PAD_BYTE)]))
        ∈ (xmodemSend [some CRC_START] [7] []).writes :=
  ⟨by decide, by decide, by decide,
    xmodem_short_chunk_padded [7] [some CRC_START] [] (by decide) (by decide) (by decide)⟩

/-- C3 counterexample: with a one-probe handshake, a 128-byte file and
a receiver that acknowledges everything, the data packet written by
`xmodemSend` (the second write of the trace) is 132 bytes long, not 131
as the claim states: the layout SOH + sequence number + complement +
128 payload bytes + checksum adds up to 132. -/
theorem xmodem_packet_not_131_bytes :
    ((xmodemSend [some CRC_START] (List.replicate 128 0) [some ACK, some ACK]).writes[1]?).map
        List.length = some 132 ∧ (132 : Nat) ≠ 131 :=
  ⟨by decide, by decide⟩

/-- C3 amended: every write of `xmodemSend` is the handshake probe
burst, the single end-of-transmission byte, or a data packet of exactly
132 bytes laid out as the marker 0x01, the sequence number, its one
complement, the 128-byte payload and the 1-byte checksum, in that
order. -/
theorem xmodem_packet_layout_132 (hs : List Reply) (file : List Byte)
    (stream : List Reply) :
    ∀ w ∈ (xmodemSend hs file stream).writes,
      w = probeBurst ∨ w = [EOT] ∨
        ∃ b p, b < 256 ∧ p.length = DATA_SIZE ∧
          w = SOH :: b :: (255 - b) :: (p ++ [calculateChecksum p]) ∧ w.length = 132 := by
  intro w hw
  cases hok : (handshakePhase hs).1 with
  | false =>
    rw [xmodemSend_fail hs file stream hok] at hw
    exact Or.inl (handshakePhase_writes_eq hs w hw)
  | true =>
    rw [xmodemSend_ok hs file stream hok] at hw
    simp only [List.mem_append] at hw
    rcases hw with h | h
    · exact Or.inl (handshakePhase_writes_eq hs w h)
    · exact Or.inr (sendChunks_writes_shape (chunks file) 1 0 stream (by norm_num)
        (fun c hc => (chunksGo_mem _ _ c hc).1) w h)

/-- Witness for the amended C3 at the EOT write of an empty transfer. -/
theorem xmodem_packet_layout_132_witness :
    ([EOT] : List Byte) = probeBurst ∨ ([EOT] : List Byte) = [EOT] ∨
      ∃ b p, b < 256 ∧ p.length = DATA_SIZE ∧
        ([EOT] : List Byte) = SOH :: b :: (255 - b) :: (p ++ [calculateChecksum p]) ∧
        ([EOT] : List Byte).length = 132 :=
  xmodem_packet_layout_132 [some CRC_START] [] [some ACK] [EOT] (by decide)

/-- C4: the sequence number starts at 1 (the data phase is entered with
block number 1), all transmissions of one block loop are byte-identical
packets with the same sequence number (so retries, caused by a negative
acknowledgement or otherwise, never change it), a negative
acknowledgement recurses on the same block after flushing, a positive
acknowledgement ends the block with a single transmission and the data
loop then advances to the next chunk with the block number incremented
by exactly 1, wrapping from 255 to 0 (not back to 1). -/
theorem xmodem_sequence_discipline :
    (∀ hs file stream, (handshakePhase hs).1 = true →
       xmodemSend hs file stream =
         { sendChunks (chunks file) 1 0 stream with
           writes := (handshakePhase hs).2 ++
             (sendChunks (chunks file) 1 0 stream).writes }) ∧
    (∀ bn buf r s w, w ∈ (sendBlockLoop bn buf r s).2.2 → w = mkPacket bn buf) ∧
    (∀ bn buf r s, sendBlockLoop bn buf (r + 1) (some NAK :: s) =
       ((sendBlockLoop bn buf r (flushSerialBuffer s)).1,
        (sendBlockLoop bn buf r (flushSerialBuffer s)).2.1,
        mkPacket bn buf :: (sendBlockLoop bn buf r (flushSerialBuffer s)).2.2)) ∧
    (∀ bn buf r s, sendBlockLoop bn buf (r + 1) (some ACK :: s) =
       (BlockResult.acked, s, [mkPacket bn buf])) ∧
    (∀ chunk rest bn total s,
       sendChunks (chunk :: rest) bn total (some ACK :: s) =
         { sendChunks rest (nextBlockNum bn) (total + chunk.length) s with
           writes := mkPacket bn (padChunk chunk) ::
             (sendChunks rest (nextBlockNum bn) (total + chunk.length) s).writes }) ∧
    (∀ bn, bn < 255 → nextBlockNum bn = bn + 1) ∧
    nextBlockNum 255 = 0 ∧ nextBlockNum 255 ≠ 1 := by
  refine ⟨xmodemSend_ok, sendBlockLoop_writes_eq, sendBlockLoop_nak,
    sendBlockLoop_ack, ?_, ?_, by decide, by decide⟩
  · intro chunk rest bn total s
    have hack : sendBlockLoop bn (padChunk chunk) MAX_RETRIES (some ACK :: s) =
        (BlockResult.acked, s, [mkPacket bn (padChunk chunk)]) :=
      sendBlockLoop_ack bn (padChunk chunk) 9 s
    rw [sendChunks_cons_acked chunk rest bn total (some ACK :: s) (by rw [hack]),
      hack]
    simp
  · intro bn h
    exact Nat.mod_eq_of_lt (Nat.succ_lt_succ h)

/-- Witness for C4: one acknowledged block advances 5 to 6, and the
concrete projections hold at block number 5. -/
theorem xmodem_sequence_discipline_witness : nextBlockNum 5 = 5 + 1 :=
  xmodem_sequence_discipline.2.2.2.2.2.1 5 (by decide)

/-- C5: the retry budget is the fixed constant 10; a block loop that
ends exhausted transmitted its packet exactly 10 times (with a silent
receiver, explicitly so); the whole transfer then fails with the
retries-exhausted error while the returned byte count is the
accumulated count of real (unpadded) bytes of the previously
acknowledged blocks, as the closing concrete 130-byte transfer shows
(first block acknowledged, second exhausted, 128 bytes reported). -/
theorem xmodem_retries_exhausted_fails :
    MAX_RETRIES = 10 ∧
    (∀ bn buf s, (sendBlockLoop bn buf MAX_RETRIES s).1 = BlockResult.exhausted →
       (sendBlockLoop bn buf MAX_RETRIES s).2.2.length = MAX_RETRIES) ∧
    (∀ bn buf, sendBlockLoop bn buf MAX_RETRIES [] =
       (BlockResult.exhausted, [], List.replicate MAX_RETRIES (mkPacket bn buf))) ∧
    (∀ chunk rest bn total s,
       (sendBlockLoop bn (padChunk chunk) MAX_RETRIES s).1 = BlockResult.exhausted →
       sendChunks (chunk :: rest) bn total s =
         { bytesSent := total, error := some TransferError.retriesExhausted,
           writes := (sendBlockLoop bn (padChunk chunk) MAX_RETRIES s).2.2 }) ∧
    xmodemSend [some NAK] (List.replicate 130 7) [some ACK] =
      { bytesSent := 128, error := some TransferError.retriesExhausted,
        writes := probeBurst :: mkPacket 1 (padChunk (List.replicate 128 7)) ::
          List.replicate 10 (mkPacket 2 (padChunk (List.replicate 2 7))) } := by
  refine ⟨rfl, ?_, ?_, sendChunks_cons_exhausted, by decide⟩
  · intro bn buf s h
    exact sendBlockLoop_exhausted_length bn buf MAX_RETRIES s h
  · intro bn buf
    exact sendBlockLoop_timeout_all bn buf MAX_RETRIES

/-- Witness for C5 at a two-byte final chunk with a silent receiver,
128 bytes already acknowledged. -/
theorem xmodem_retries_exhausted_fails_witness :
    sendChunks [List.replicate 2 7] 2 128 [] =
      { bytesSent := 128, error := some TransferError.retriesExhausted,
        writes := (sendBlockLoop 2 (padChunk (List.replicate 2 7)) MAX_RETRIES []).2.2 } :=
  xmodem_retries_exhausted_fails.2.2.2.1 (List.replicate 2 7) [] 2 128 [] (by decide)

/-- C6: a cancel reply ends the block loop at once with a single
transmission, the data loop then stops with the cancellation error,
zero further writes (the trace ends with the writes of the cancelled
block loop) and the byte count accumulated over the previously
acknowledged blocks only, as the closing concrete five-block transfer
shows (two blocks acknowledged, cancel on the third: 256 bytes, three
data writes, nothing after the cancel). -/
theorem xmodem_cancel_halts :
    (∀ bn buf r s, sendBlockLoop bn buf (r + 1) (some CAN :: s) =
       (BlockResult.cancelled, s, [mkPacket bn buf])) ∧
    (∀ chunk rest bn total s,
       (sendBlockLoop bn (padChunk chunk) MAX_RETRIES s).1 = BlockResult.cancelled →
       sendChunks (chunk :: rest) bn total s =
         { bytesSent := total, error := some TransferError.cancelled,
           writes := (sendBlockLoop bn (padChunk chunk) MAX_RETRIES s).2.2 }) ∧
    (∀ chunk rest bn total s,
       sendChunks (chunk :: rest) bn total (some CAN :: s) =
         { bytesSent := total, error := some TransferError.cancelled,
           writes := [mkPacket bn (padChunk chunk)] }) ∧
    xmodemSend [some CRC_START] (List.replicate 640 3) [some ACK, some ACK, some CAN] =
      { bytesSent := 256, error := some TransferError.cancelled,
        writes := [probeBurst, mkPacket 1 (padChunk (List.replicate 128 3)),
          mkPacket 2 (padChunk (List.replicate 128 3)),
          mkPacket 3 (padChunk (List.replicate 128 3))] } := by
  refine ⟨sendBlockLoop_can, sendChunks_cons_cancelled, ?_, by decide⟩
  intro chunk rest bn total s
  have hcan : sendBlockLoop bn (padChunk chunk) MAX_RETRIES (some CAN :: s) =
      (BlockResult.cancelled, s, [mkPacket bn (padChunk chunk)]) :=
    sendBlockLoop_can bn (padChunk chunk) 9 s
  rw [sendChunks_cons_cancelled chunk rest bn total (some CAN :: s) (by rw [hcan]),
    hcan]

/-- Witness for C6 at a one-byte chunk cancelled on its first
transmission with no bytes previously acknowledged. -/
theorem xmodem_cancel_halts_witness :
    sendChunks [[1]] 1 0 [some CAN] =
      { bytesSent := 0, error := some TransferError.cancelled,
        writes := (sendBlockLoop 1 (padChunk [1]) MAX_RETRIES [some CAN]).2.2 } :=
  xmodem_cancel_halts.2.1 [1] [] 1 0 [some CAN] (by decide)

/-- C7: the handshake succeeds exactly when some attempt inside the
window reads the CRC-start byte 0x43 or the negative acknowledgement
0x15 (any other byte or a timeout is passed over and probing
continues); when the window expires without such a byte, `xmodemSend`
returns the handshake-timeout error with zero bytes sent and the trace
holds nothing but probe bursts, so the data phase was never entered. -/
theorem xmodem_handshake_gate :
    (∀ hs, (handshakePhase hs).1 = true ↔
       ∃ b, some b ∈ hs ∧ (b = CRC_START ∨ b = NAK)) ∧
    (∀ hs file stream, (handshakePhase hs).1 = false →
       xmodemSend hs file stream =
         { bytesSent := 0, error := some TransferError.handshakeTimeout,
           writes := (handshakePhase hs).2 }) ∧
    (∀ hs w, w ∈ (handshakePhase hs).2 → w = probeBurst) :=
  ⟨handshakePhase_true_iff, xmodemSend_fail, handshakePhase_writes_eq⟩

/-- Witness for C7: a window of one ignored byte and one timeout makes
the whole transfer fail with zero bytes and two probe bursts. -/
theorem xmodem_handshake_gate_witness :
    xmodemSend [some 0x41, none] [1, 2, 3] [some ACK] =
      { bytesSent := 0, error := some TransferError.handshakeTimeout,
        writes := (handshakePhase [some 0x41, none]).2 } :=
  xmodem_handshake_gate.2.1 [some 0x41, none] [1, 2, 3] [some ACK] (by decide)

/-- C8: once the chunks are exhausted the data loop runs the
end-of-transmission exchange with exactly 10 attempts; if no attempt is
answered with a positive acknowledgement the result still carries the
full accumulated byte count together with the unconfirmed-EOT error,
which is distinct from every mid-transfer failure; a positive
acknowledgement ends the transfer with no error. -/
theorem xmodem_eot_warning :
    (∀ bn total s, sendChunks [] bn total s = eotPhase total 10 s) ∧
    (∀ total s, (∀ x ∈ s.take 10, x ≠ some ACK) →
       eotPhase total 10 s =
         { bytesSent := total, error := some TransferError.eotUnconfirmed,
           writes := List.replicate 10 [EOT] }) ∧
    (∀ total r s, eotPhase total (r + 1) (some ACK :: s) =
       { bytesSent := total, error := none, writes := [[EOT]] }) ∧
    TransferError.eotUnconfirmed ≠ TransferError.retriesExhausted ∧
    TransferError.eotUnconfirmed ≠ TransferError.cancelled ∧
    TransferError.eotUnconfirmed ≠ TransferError.handshakeTimeout := by
  refine ⟨sendChunks_nil, ?_, eotPhase_ack, by decide, by decide, by decide⟩
  intro total s h
  exact eotPhase_no_ack total 10 s h

/-- Witness for C8: a silent receiver after 999 delivered bytes keeps
the count and reports the unconfirmed-EOT error after 10 EOT writes. -/
theorem xmodem_eot_warning_witness :
    eotPhase 999 10 [] =
      { bytesSent := 999, error := some TransferError.eotUnconfirmed,
        writes := List.replicate 10 [EOT] } :=
  xmodem_eot_warning.2.1 999 [] (by decide)

/-- C9: on an empty firmware source, after a successful handshake,
`xmodemSend` writes no data block at all, goes straight to the
end-of-transmission exchange, and on a positive acknowledgement of the
EOT byte returns zero bytes sent and no error; the trace is the probe
bursts followed by the single EOT write. -/
theorem xmodem_empty_file_eot_only (hs rest : List Reply)
    (hok : (handshakePhase hs).1 = true) :
    xmodemSend hs [] (some ACK :: rest) =
      { bytesSent := 0, error := none,
        writes := (handshakePhase hs).2 ++ [[EOT]] } := by
  rw [xmodemSend_ok hs [] (some ACK :: rest) hok]
  have hc : chunks ([] : List Byte) = [] := rfl
  rw [hc, sendChunks_nil]
  have h10 : eotPhase 0 10 (some ACK :: rest) =
      { bytesSent := 0, error := none, writes := [[EOT]] } :=
    eotPhase_ack 0 9 rest
  rw [h10]

/-- Witness for C9 with a handshake answered by a plain negative
acknowledgement. -/
theorem xmodem_empty_file_eot_only_witness :
    xmodemSend [some NAK] [] [some ACK] =
      { bytesSent := 0, error := none,
        writes := (handshakePhase [some NAK]).2 ++ [[EOT]] } :=
  xmodem_empty_file_eot_only [some NAK] [] (by decide)
